import Mathlib

/-!
# Verification of the retail ETL pipeline (src/etl_backend.py)

A shallow embedding of the `/process` route (`process_data`) of the Flask ETL
backend.  Dates are embedded as integers (day numbers); pandas floating-point
cells are embedded as `PVal` (a finite rational, NaN, or a signed infinity),
which lets us model float division by zero and `fillna(0)` faithfully.

Modelling notes, checked against the source line by line:
* Every DataFrame produced by `pd.read_csv` / `pd.merge(...)` /
  `.reset_index()` in the source carries a unique RangeIndex, so the per-group
  lambdas `vendas_df.loc[x.index, ...]` (weighted price) and
  `inventario_df.loc[x.index]` (distinct available models) select exactly the
  rows of the current group; they are embedded as functions of the group.
* `groupby` results are only consumed through key lookups (left merges), so
  sales and inventory aggregates are embedded as per-key functions; a key is
  present in an aggregate exactly when its group of rows is non-empty.
* `df[['item_id','series_id']].drop_duplicates()` keeps the first occurrence
  of every distinct *pair*, embedded by `dedupFirst`.
* An empty sales table reaches `pd.date_range(NaT, NaT)`, which raises and is
  caught by the blanket handler; the embedding returns the generic error then.
-/

/-- Calendar dates are embedded as integer day numbers. -/
abbrev Date := Int

/-- One parsed row of the sales CSV (columns the pipeline reads). -/
structure SalesRow where
  timestamp : Date
  item_id : String
  product_brand : String
  product_style : String
  target_quantity : ℚ
  price : ℚ
  deriving DecidableEq, Repr

/-- One parsed row of the optional inventory CSV. -/
structure InvRow where
  snapshot_date : Date
  item_id : String
  quantity_on_hand : ℚ
  deriving DecidableEq, Repr

/-- A pandas floating-point cell: a finite rational, NaN, or a signed infinity. -/
inductive PVal where
  | num (q : ℚ)
  | nan
  | posinf
  | neginf
  deriving DecidableEq, Repr

/-- Float division as pandas performs it: `0/0 = NaN`, `±x/0 = ±inf`,
anything involving NaN is NaN (the infinite operand cases never arise here). -/
def PVal.div : PVal → PVal → PVal
  | .num a, .num b =>
      if b = 0 then (if a = 0 then .nan else if 0 < a then .posinf else .neginf)
      else .num (a / b)
  | _, _ => .nan

/-- `fillna(0)`: replaces NaN by 0 and leaves every other value (infinities
included) unchanged. -/
def PVal.fillna0 : PVal → PVal
  | .nan => .num 0
  | v => v

/-- `drop_duplicates()` / `pd.unique`: keep the first occurrence of each value. -/
def dedupFirst {α : Type} [DecidableEq α] : List α → List α
  | [] => []
  | x :: xs => x :: dedupFirst (xs.filter (fun y => y ≠ x))
termination_by l => l.length
decreasing_by
  simp only [List.length_cons]
  exact Nat.lt_succ_of_le (List.length_filter_le _ _)

/-- `series_id = product_brand + '_' + product_style`. -/
def series_id (r : SalesRow) : String := r.product_brand ++ "_" ++ r.product_style

/-- The rows of the `groupby(['timestamp', 'series_id'])` group with key `(d, s)`. -/
def salesGroup (vendas : List SalesRow) (d : Date) (s : String) : List SalesRow :=
  vendas.filter (fun r => r.timestamp == d && series_id r == s)

/-- `'target_quantity': 'sum'` over one group. -/
def total_quantity_sold (g : List SalesRow) : ℚ :=
  (g.map (fun r => r.target_quantity)).sum

/-- `(price * target_quantity).sum()` over one group. -/
def soma_preco_quantidade (g : List SalesRow) : ℚ :=
  (g.map (fun r => r.price * r.target_quantity)).sum

/-- The weighted-price lambda: `Σ(price·qty) / Σ(qty)` over the group's rows,
with pandas float-division semantics. -/
def preco_medio (g : List SalesRow) : PVal :=
  PVal.div (PVal.num (soma_preco_quantidade g)) (PVal.num (total_quantity_sold g))

/-- `total_quantity_sold` after the left merge of the sales aggregate onto the
grid: NaN when the key has no sales rows. -/
def merged_tq (vendas : List SalesRow) (d : Date) (s : String) : PVal :=
  if salesGroup vendas d s = [] then PVal.nan
  else PVal.num (total_quantity_sold (salesGroup vendas d s))

/-- `preco_medio_praticado` after the left merge onto the grid. -/
def merged_preco (vendas : List SalesRow) (d : Date) (s : String) : PVal :=
  if salesGroup vendas d s = [] then PVal.nan
  else preco_medio (salesGroup vendas d s)

/-- An inventory row after the `item_id` merge attached a `series_id`. -/
structure MappedInvRow where
  snapshot_date : Date
  item_id : String
  quantity_on_hand : ℚ
  series_id : String
  deriving DecidableEq, Repr

/-- `mapa_id = vendas_df[['item_id', 'series_id']].drop_duplicates()`. -/
def mapa_id (vendas : List SalesRow) : List (String × String) :=
  dedupFirst (vendas.map (fun r => (r.item_id, series_id r)))

/-- The mapped copies one inventory row produces in
`pd.merge(inventario_df, mapa_id, on='item_id', how='left')` followed by
`dropna(subset=['series_id'])`: one copy per matching map entry, none when the
item is unmapped. -/
def mapInvRow (mapa : List (String × String)) (r : InvRow) : List MappedInvRow :=
  (mapa.filter (fun p => p.1 == r.item_id)).map
    (fun p => ⟨r.snapshot_date, r.item_id, r.quantity_on_hand, p.2⟩)

/-- The inventory table after the series merge and the `dropna`. -/
def inventario_mapeado (vendas : List SalesRow) (inv : List InvRow) : List MappedInvRow :=
  inv.flatMap (mapInvRow (mapa_id vendas))

/-- `vendas_df.groupby('series_id')['item_id'].nunique()` for one series. -/
def total_skus_contagem (vendas : List SalesRow) (s : String) : ℕ :=
  (dedupFirst ((vendas.filter (fun r => series_id r == s)).map (fun r => r.item_id))).length

/-- The rows of the inventory `groupby(['snapshot_date', 'series_id'])` group
with key `(d, s)`. -/
def invGroup (vendas : List SalesRow) (inv : List InvRow) (d : Date) (s : String) :
    List MappedInvRow :=
  (inventario_mapeado vendas inv).filter (fun r => r.snapshot_date == d && r.series_id == s)

/-- `'quantity_on_hand': 'sum'` over one inventory group. -/
def estoque_total (g : List MappedInvRow) : ℚ :=
  (g.map (fun r => r.quantity_on_hand)).sum

/-- The availability lambda: distinct `item_id`s with `quantity_on_hand > 0`
among the group's rows. -/
def numero_modelos (g : List MappedInvRow) : ℕ :=
  (dedupFirst ((g.filter (fun r => decide (0 < r.quantity_on_hand))).map (fun r => r.item_id))).length

/-- The `total_skus_contagem` column after its left merge on `series_id`:
NaN when the series never occurs in sales. -/
def total_skus_lookup (vendas : List SalesRow) (s : String) : PVal :=
  if vendas.any (fun r => series_id r == s) then PVal.num (total_skus_contagem vendas s)
  else PVal.nan

/-- `disponibilidade_sku_percentual = numero_modelos / total_skus_contagem`. -/
def disponibilidade (vendas : List SalesRow) (inv : List InvRow) (d : Date) (s : String) : PVal :=
  PVal.div (PVal.num (numero_modelos (invGroup vendas inv d s) : ℚ)) (total_skus_lookup vendas s)

/-- `estoque_total_inicio_dia` after the left merge onto the grid. -/
def merged_estoque (vendas : List SalesRow) (inv : List InvRow) (d : Date) (s : String) : PVal :=
  if invGroup vendas inv d s = [] then PVal.nan
  else PVal.num (estoque_total (invGroup vendas inv d s))

/-- `numero_modelos_disponiveis` after the left merge onto the grid. -/
def merged_modelos (vendas : List SalesRow) (inv : List InvRow) (d : Date) (s : String) : PVal :=
  if invGroup vendas inv d s = [] then PVal.nan
  else PVal.num (numero_modelos (invGroup vendas inv d s) : ℚ)

/-- `disponibilidade_sku_percentual` after the left merge onto the grid. -/
def merged_disp (vendas : List SalesRow) (inv : List InvRow) (d : Date) (s : String) : PVal :=
  if invGroup vendas inv d s = [] then PVal.nan
  else disponibilidade vendas inv d s

/-- `vendas_df['timestamp'].min()` (the `[]` arm is unreachable: the pipeline
errors out on an empty sales table before using it). -/
def data_inicio : List SalesRow → Date
  | [] => 0
  | r :: rs => rs.foldl (fun m x => min m x.timestamp) r.timestamp

/-- `vendas_df['timestamp'].max()` (same unreachable `[]` arm). -/
def data_fim : List SalesRow → Date
  | [] => 0
  | r :: rs => rs.foldl (fun m x => max m x.timestamp) r.timestamp

/-- `pd.date_range(start, end, freq='D')`: every day from `lo` to `hi`. -/
def datas_completas (lo hi : Date) : List Date :=
  (List.range (hi - lo + 1).toNat).map (fun (n : ℕ) => lo + (n : Int))

/-- `vendas_df['series_id'].unique()` (first-appearance order). -/
def series_ids_unicos (vendas : List SalesRow) : List String :=
  dedupFirst (vendas.map series_id)

/-- `list(itertools.product(datas_completas, series_ids_unicos))`. -/
def master_grid (vendas : List SalesRow) : List (Date × String) :=
  (datas_completas (data_inicio vendas) (data_fim vendas)).flatMap
    (fun d => (series_ids_unicos vendas).map (fun s => (d, s)))

/-- One output row: the key columns plus the numeric columns in final order. -/
structure FinalRow where
  timestamp : Date
  series_id : String
  numeric : List PVal
  deriving DecidableEq, Repr

/-- The fully merged and zero-filled grid row for key `(d, s)`:
`[total_quantity_sold, preco_medio_praticado]` plus, when inventory was
supplied, `[estoque_total_inicio_dia, disponibilidade_sku_percentual,
numero_modelos_disponiveis]`, each passed through `fillna(0)`. -/
def makeRow (vendas : List SalesRow) (inv : Option (List InvRow)) (d : Date) (s : String) :
    FinalRow :=
  { timestamp := d, series_id := s,
    numeric :=
      [(merged_tq vendas d s).fillna0, (merged_preco vendas d s).fillna0] ++
      (match inv with
       | none => []
       | some invRows =>
          [(merged_estoque vendas invRows d s).fillna0,
           (merged_disp vendas invRows d s).fillna0,
           (merged_modelos vendas invRows d s).fillna0]) }

/-- The `sort_values(['series_id', 'timestamp'])` order. -/
def rowLE (a b : FinalRow) : Bool :=
  decide (a.series_id < b.series_id) ||
    (a.series_id == b.series_id && decide (a.timestamp ≤ b.timestamp))

/-- The final rows: the merged, zero-filled grid sorted by (series_id, timestamp). -/
def buildRows (vendas : List SalesRow) (inv : Option (List InvRow)) : List FinalRow :=
  ((master_grid vendas).map (fun p => makeRow vendas inv p.1 p.2)).mergeSort rowLE

/-- The final column list (4 columns without inventory, 7 with). -/
def colunas_finais (hasInv : Bool) : List String :=
  if hasInv then
    ["timestamp", "series_id", "total_quantity_sold", "preco_medio_praticado",
     "estoque_total_inicio_dia", "disponibilidade_sku_percentual",
     "numero_modelos_disponiveis"]
  else
    ["timestamp", "series_id", "total_quantity_sold", "preco_medio_praticado"]

/-- The produced CSV document: header plus rows. -/
structure FinalOutput where
  cols : List String
  rows : List FinalRow
  deriving DecidableEq, Repr

/-- An uploaded CSV file for sales: header columns plus parsed rows. -/
structure SalesTable where
  cols : List String
  rows : List SalesRow
  deriving DecidableEq, Repr

/-- An uploaded CSV file for inventory: header columns plus parsed rows. -/
structure InvTable where
  cols : List String
  rows : List InvRow
  deriving DecidableEq, Repr

/-- A multipart file part: the client-supplied filename plus the file content. -/
structure FilePart (α : Type) where
  filename : String
  table : α
  deriving DecidableEq, Repr

/-- The request shape `process_data` reads: `request.files['sales_file']` and
`request.files['inventory_file']`, each possibly absent. -/
structure Request where
  sales_file : Option (FilePart SalesTable)
  inventory_file : Option (FilePart InvTable)
  deriving DecidableEq, Repr

def colunas_obrigatorias_vendas : List String :=
  ["timestamp", "item_id", "product_brand", "product_style", "target_quantity", "price"]

def colunas_obrigatorias_inventario : List String :=
  ["snapshot_date", "item_id", "quantity_on_hand"]

/-- `[col for col in obrigatorias if col not in df.columns]`. -/
def colunas_faltantes (obrigatorias presentes : List String) : List String :=
  obrigatorias.filter (fun c => !(presentes.contains c))

def salesColsErr (missing : List String) : String :=
  "Colunas obrigatórias faltando no arquivo de vendas: " ++ String.intercalate ", " missing

def invColsErr (missing : List String) : String :=
  "Colunas obrigatórias faltando no arquivo de inventário: " ++ String.intercalate ", " missing

/-- The blanket `except` branch message for the empty-sales `date_range` failure. -/
def processErrMsg : String := "Erro durante o processamento"

/-- The inventory table the pipeline actually uses: the part must be present
AND have a non-empty filename, otherwise it is treated as absent. -/
def effInv (req : Request) : Option InvTable :=
  match req.inventory_file with
  | none => none
  | some ip => if ip.filename = "" then none else some ip.table

/-- Stages 2-7 of the pipeline, after file loading and column validation. -/
def pipelineCore (vendas : List SalesRow) (inv : Option (List InvRow)) :
    Except String FinalOutput :=
  if vendas = [] then Except.error processErrMsg
  else Except.ok { cols := colunas_finais inv.isSome, rows := buildRows vendas inv }

/-- The `/process` route: validation, optional inventory handling, pipeline. -/
def process_data (req : Request) : Except String FinalOutput :=
  match req.sales_file with
  | none => Except.error "Arquivo de vendas é obrigatório"
  | some sf =>
    if sf.filename = "" then Except.error "Nenhum arquivo de vendas selecionado"
    else if colunas_faltantes colunas_obrigatorias_vendas sf.table.cols ≠ [] then
      Except.error (salesColsErr (colunas_faltantes colunas_obrigatorias_vendas sf.table.cols))
    else
      match effInv req with
      | some it =>
        if colunas_faltantes colunas_obrigatorias_inventario it.cols ≠ [] then
          Except.error (invColsErr (colunas_faltantes colunas_obrigatorias_inventario it.cols))
        else pipelineCore sf.table.rows (some it.rows)
      | none => pipelineCore sf.table.rows none

/-- Rendering of one cell for the output CSV. -/
def renderPVal : PVal → String
  | .num q => toString q
  | .nan => ""
  | .posinf => "inf"
  | .neginf => "-inf"

/-- One serialized CSV line. -/
def renderRow (r : FinalRow) : String :=
  String.intercalate "," (toString r.timestamp :: r.series_id :: r.numeric.map renderPVal)

/-- The serialized CSV document (header line, then one line per row). -/
def csvOutput (o : FinalOutput) : String :=
  String.intercalate "\n" (String.intercalate "," o.cols :: o.rows.map renderRow) ++ "\n"

/-! ## Basic lemmas about the embedded operations -/

theorem mem_dedupFirst {α : Type} [DecidableEq α] (a : α) (l : List α) :
    a ∈ dedupFirst l ↔ a ∈ l := by
  induction l using dedupFirst.induct with
  | case1 => simp [dedupFirst]
  | case2 x xs ih =>
    rw [dedupFirst]
    by_cases hax : a = x
    · subst hax; simp
    · simp only [List.mem_cons, hax, false_or, ih, List.mem_filter]
      constructor
      · exact fun h => h.1
      · exact fun h => ⟨h, by simp [hax]⟩

theorem nodup_dedupFirst {α : Type} [DecidableEq α] (l : List α) :
    (dedupFirst l).Nodup := by
  induction l using dedupFirst.induct with
  | case1 => rw [dedupFirst]; exact List.nodup_nil
  | case2 x xs ih =>
    rw [dedupFirst, List.nodup_cons]
    refine ⟨fun hmem => ?_, ih⟩
    rw [mem_dedupFirst] at hmem
    have := (List.mem_filter.mp hmem).2
    simp at this

theorem length_le_one_of_nodup_of_all_eq {α : Type} {l : List α} (hnd : l.Nodup)
    (heq : ∀ a ∈ l, ∀ b ∈ l, a = b) : l.length ≤ 1 := by
  match l with
  | [] => simp
  | [x] => simp
  | x :: y :: rest =>
    exfalso
    have hxy : x = y := heq x (by simp) y (by simp)
    rw [hxy] at hnd
    exact (List.nodup_cons.mp hnd).1 (List.mem_cons_self y rest)

theorem eq_singleton_of_nodup_of_all_eq {α : Type} {l : List α} {x : α}
    (hnd : l.Nodup) (hx : x ∈ l) (heq : ∀ a ∈ l, a = x) : l = [x] := by
  match l with
  | [] => cases hx
  | [a] => rw [heq a (by simp)]
  | a :: b :: rest =>
    exfalso
    have ha : a = x := heq a (by simp)
    have hb : b = x := heq b (by simp)
    rw [ha, hb] at hnd
    exact (List.nodup_cons.mp hnd).1 (List.mem_cons_self x rest)

theorem foldl_min_le_init (l : List SalesRow) (i : Date) :
    l.foldl (fun m x => min m x.timestamp) i ≤ i := by
  induction l generalizing i with
  | nil => exact le_refl i
  | cons x xs ih =>
    simp only [List.foldl_cons]
    exact le_trans (ih _) (min_le_left _ _)

theorem foldl_min_le_mem (l : List SalesRow) (i : Date) (r : SalesRow) (hr : r ∈ l) :
    l.foldl (fun m x => min m x.timestamp) i ≤ r.timestamp := by
  induction l generalizing i with
  | nil => cases hr
  | cons x xs ih =>
    simp only [List.foldl_cons]
    rcases List.mem_cons.mp hr with h | h
    · subst h
      exact le_trans (foldl_min_le_init xs _) (min_le_right _ _)
    · exact ih _ h

theorem foldl_min_attained (l : List SalesRow) (i : Date) :
    l.foldl (fun m x => min m x.timestamp) i = i ∨
      l.foldl (fun m x => min m x.timestamp) i ∈ l.map (fun r => r.timestamp) := by
  induction l generalizing i with
  | nil => exact Or.inl rfl
  | cons x xs ih =>
    simp only [List.foldl_cons, List.map_cons, List.mem_cons]
    rcases ih (min i x.timestamp) with h | h
    · rw [h]
      rcases le_total i x.timestamp with hle | hle
      · exact Or.inl (min_eq_left hle)
      · exact Or.inr (Or.inl (min_eq_right hle))
    · exact Or.inr (Or.inr h)

theorem init_le_foldl_max (l : List SalesRow) (i : Date) :
    i ≤ l.foldl (fun m x => max m x.timestamp) i := by
  induction l generalizing i with
  | nil => exact le_refl i
  | cons x xs ih =>
    simp only [List.foldl_cons]
    exact le_trans (le_max_left _ _) (ih _)

theorem mem_le_foldl_max (l : List SalesRow) (i : Date) (r : SalesRow) (hr : r ∈ l) :
    r.timestamp ≤ l.foldl (fun m x => max m x.timestamp) i := by
  induction l generalizing i with
  | nil => cases hr
  | cons x xs ih =>
    simp only [List.foldl_cons]
    rcases List.mem_cons.mp hr with h | h
    · subst h
      exact le_trans (le_max_right _ _) (init_le_foldl_max xs _)
    · exact ih _ h

theorem foldl_max_attained (l : List SalesRow) (i : Date) :
    l.foldl (fun m x => max m x.timestamp) i = i ∨
      l.foldl (fun m x => max m x.timestamp) i ∈ l.map (fun r => r.timestamp) := by
  induction l generalizing i with
  | nil => exact Or.inl rfl
  | cons x xs ih =>
    simp only [List.foldl_cons, List.map_cons, List.mem_cons]
    rcases ih (max i x.timestamp) with h | h
    · rw [h]
      rcases le_total i x.timestamp with hle | hle
      · exact Or.inr (Or.inl (max_eq_right hle))
      · exact Or.inl (max_eq_left hle)
    · exact Or.inr (Or.inr h)

theorem data_inicio_le {vendas : List SalesRow} {r : SalesRow} (hr : r ∈ vendas) :
    data_inicio vendas ≤ r.timestamp := by
  match vendas with
  | [] => cases hr
  | x :: xs =>
    rw [data_inicio]
    rcases List.mem_cons.mp hr with h | h
    · subst h; exact foldl_min_le_init xs _
    · exact foldl_min_le_mem xs _ r h

theorem le_data_fim {vendas : List SalesRow} {r : SalesRow} (hr : r ∈ vendas) :
    r.timestamp ≤ data_fim vendas := by
  match vendas with
  | [] => cases hr
  | x :: xs =>
    rw [data_fim]
    rcases List.mem_cons.mp hr with h | h
    · subst h; exact init_le_foldl_max xs _
    · exact mem_le_foldl_max xs _ r h

theorem data_inicio_mem {vendas : List SalesRow} (h : vendas ≠ []) :
    data_inicio vendas ∈ vendas.map (fun r => r.timestamp) := by
  match vendas with
  | [] => exact absurd rfl h
  | x :: xs =>
    rw [data_inicio]
    rcases foldl_min_attained xs x.timestamp with heq | hmem
    · rw [heq]; simp
    · simp only [List.map_cons, List.mem_cons]
      exact Or.inr hmem

theorem data_fim_mem {vendas : List SalesRow} (h : vendas ≠ []) :
    data_fim vendas ∈ vendas.map (fun r => r.timestamp) := by
  match vendas with
  | [] => exact absurd rfl h
  | x :: xs =>
    rw [data_fim]
    rcases foldl_max_attained xs x.timestamp with heq | hmem
    · rw [heq]; simp
    · simp only [List.map_cons, List.mem_cons]
      exact Or.inr hmem

theorem mem_datas_completas (lo hi d : Int) :
    d ∈ datas_completas lo hi ↔ lo ≤ d ∧ d ≤ hi := by
  constructor
  · intro h
    obtain ⟨n, hn, he⟩ := List.mem_map.mp h
    rw [List.mem_range] at hn
    have he2 : lo + (n : Int) = d := he
    omega
  · intro h
    apply List.mem_map.mpr
    refine ⟨(d - lo).toNat, ?_, ?_⟩
    · rw [List.mem_range]
      omega
    · show lo + ((d - lo).toNat : Int) = d
      omega

theorem nodup_datas_completas (lo hi : Int) : (datas_completas lo hi).Nodup := by
  apply List.Nodup.map
  · intro a b hab
    have h2 : lo + (a : Int) = lo + (b : Int) := hab
    omega
  · exact List.nodup_range _

theorem master_grid_eq_product (vendas : List SalesRow) :
    master_grid vendas =
      (datas_completas (data_inicio vendas) (data_fim vendas)) ×ˢ
        (series_ids_unicos vendas) := rfl

theorem mem_master_grid (vendas : List SalesRow) (d : Date) (s : String) :
    (d, s) ∈ master_grid vendas ↔
      d ∈ datas_completas (data_inicio vendas) (data_fim vendas) ∧
        s ∈ series_ids_unicos vendas := by
  rw [master_grid_eq_product]
  exact List.mem_product

theorem nodup_master_grid (vendas : List SalesRow) : (master_grid vendas).Nodup := by
  rw [master_grid_eq_product]
  exact List.Nodup.product (nodup_datas_completas _ _) (nodup_dedupFirst _)

theorem makeRow_timestamp (vendas : List SalesRow) (inv : Option (List InvRow))
    (d : Date) (s : String) : (makeRow vendas inv d s).timestamp = d := rfl

theorem makeRow_series_id (vendas : List SalesRow) (inv : Option (List InvRow))
    (d : Date) (s : String) : (makeRow vendas inv d s).series_id = s := rfl

/-- Inversion of a successful run: the sales file was present with rows, and
the output is the merged, sorted grid with the matching column set. -/
theorem process_data_ok {req : Request} {out : FinalOutput}
    (h : process_data req = Except.ok out) :
    ∃ sf, req.sales_file = some sf ∧ sf.table.rows ≠ [] ∧
      out = { cols := colunas_finais (effInv req).isSome,
              rows := buildRows sf.table.rows ((effInv req).map (fun it => it.rows)) } := by
  unfold process_data at h
  rcases hsf : req.sales_file with _ | sf
  · rw [hsf] at h; simp at h
  · rw [hsf] at h
    dsimp only at h
    by_cases h1 : sf.filename = ""
    · rw [if_pos h1] at h; simp at h
    · rw [if_neg h1] at h
      by_cases h2 : colunas_faltantes colunas_obrigatorias_vendas sf.table.cols ≠ []
      · rw [if_pos h2] at h; simp at h
      · rw [if_neg h2] at h
        refine ⟨sf, rfl, ?_⟩
        rcases hinv : effInv req with _ | it
        · rw [hinv] at h
          dsimp only at h
          unfold pipelineCore at h
          by_cases h3 : sf.table.rows = []
          · rw [if_pos h3] at h; simp at h
          · rw [if_neg h3] at h
            simp only [Except.ok.injEq] at h
            exact ⟨h3, h.symm⟩
        · rw [hinv] at h
          dsimp only at h
          by_cases h4 : colunas_faltantes colunas_obrigatorias_inventario it.cols ≠ []
          · rw [if_pos h4] at h; simp at h
          · rw [if_neg h4] at h
            unfold pipelineCore at h
            by_cases h3 : sf.table.rows = []
            · rw [if_pos h3] at h; simp at h
            · rw [if_neg h3] at h
              simp only [Except.ok.injEq] at h
              exact ⟨h3, h.symm⟩

theorem buildRows_perm (vendas : List SalesRow) (inv : Option (List InvRow)) :
    List.Perm (buildRows vendas inv)
      ((master_grid vendas).map (fun p => makeRow vendas inv p.1 p.2)) :=
  List.mergeSort_perm _ _

/-- Every output row is the merged grid row for its own key, and its key lies
on the master grid. -/
theorem mem_buildRows {vendas : List SalesRow} {inv : Option (List InvRow)} {r : FinalRow}
    (h : r ∈ buildRows vendas inv) :
    r = makeRow vendas inv r.timestamp r.series_id ∧
      (r.timestamp, r.series_id) ∈ master_grid vendas := by
  unfold buildRows at h
  rw [List.mem_mergeSort] at h
  obtain ⟨p, hp, he⟩ := List.mem_map.mp h
  subst he
  refine ⟨rfl, ?_⟩
  show (p.1, p.2) ∈ master_grid vendas
  rw [Prod.mk.eta]
  exact hp

theorem mem_salesGroup {vendas : List SalesRow} {d : Date} {s : String} {r : SalesRow} :
    r ∈ salesGroup vendas d s ↔ r ∈ vendas ∧ r.timestamp = d ∧ series_id r = s := by
  unfold salesGroup
  rw [List.mem_filter]
  simp [and_assoc]

theorem mem_invGroup {vendas : List SalesRow} {inv : List InvRow} {d : Date} {s : String}
    {m : MappedInvRow} :
    m ∈ invGroup vendas inv d s ↔
      m ∈ inventario_mapeado vendas inv ∧ m.snapshot_date = d ∧ m.series_id = s := by
  unfold invGroup
  rw [List.mem_filter]
  simp [and_assoc]

theorem soma_preco_quantidade_eq_zero {g : List SalesRow}
    (hnn : ∀ r ∈ g, 0 ≤ r.target_quantity) (h0 : total_quantity_sold g = 0) :
    soma_preco_quantidade g = 0 := by
  have hz : ∀ r ∈ g, r.target_quantity = 0 := by
    intro r hr
    have hnn2 : ∀ x ∈ g.map (fun x => x.target_quantity), (0 : ℚ) ≤ x := by
      intro x hx
      obtain ⟨y, hy, he⟩ := List.mem_map.mp hx
      rw [← he]
      exact hnn y hy
    have hmem : r.target_quantity ∈ g.map (fun x => x.target_quantity) :=
      List.mem_map_of_mem _ hr
    exact List.all_zero_of_le_zero_le_of_sum_eq_zero hnn2 h0 hmem
  unfold soma_preco_quantidade
  apply List.sum_eq_zero
  intro x hx
  obtain ⟨y, hy, he⟩ := List.mem_map.mp hx
  rw [← he, hz y hy, mul_zero]

theorem salesGroup_ne_nil_of_pos {vendas : List SalesRow} {d : Date} {s : String}
    (h : 0 < total_quantity_sold (salesGroup vendas d s)) :
    salesGroup vendas d s ≠ [] := by
  intro hc
  rw [hc] at h
  exact lt_irrefl 0 h

instance {ε α : Type} [DecidableEq ε] [DecidableEq α] : DecidableEq (Except ε α)
  | .error a, .error b =>
    if h : a = b then .isTrue (congrArg Except.error h)
    else .isFalse (fun hc => h (by injection hc))
  | .error _, .ok _ => .isFalse (fun hc => Except.noConfusion hc)
  | .ok _, .error _ => .isFalse (fun hc => Except.noConfusion hc)
  | .ok a, .ok b =>
    if h : a = b then .isTrue (congrArg Except.ok h)
    else .isFalse (fun hc => h (by injection hc))

theorem fillna0_num (q : ℚ) : (PVal.num q).fillna0 = PVal.num q := rfl

theorem div_num_of_ne {a b : ℚ} (hb : b ≠ 0) :
    PVal.div (PVal.num a) (PVal.num b) = PVal.num (a / b) := by
  simp only [PVal.div]
  rw [if_neg hb]

theorem makeRow_numeric_get0 (vendas : List SalesRow) (inv : Option (List InvRow))
    (d : Date) (s : String) :
    (makeRow vendas inv d s).numeric[0]? = some (merged_tq vendas d s).fillna0 := by
  cases inv <;> rfl

theorem makeRow_numeric_get1 (vendas : List SalesRow) (inv : Option (List InvRow))
    (d : Date) (s : String) :
    (makeRow vendas inv d s).numeric[1]? = some (merged_preco vendas d s).fillna0 := by
  cases inv <;> rfl

theorem makeRow_numeric_get2 (vendas : List SalesRow) (inv : List InvRow)
    (d : Date) (s : String) :
    (makeRow vendas (some inv) d s).numeric[2]? = some (merged_estoque vendas inv d s).fillna0 :=
  rfl

theorem makeRow_numeric_get3 (vendas : List SalesRow) (inv : List InvRow)
    (d : Date) (s : String) :
    (makeRow vendas (some inv) d s).numeric[3]? = some (merged_disp vendas inv d s).fillna0 :=
  rfl

theorem makeRow_numeric_get4 (vendas : List SalesRow) (inv : List InvRow)
    (d : Date) (s : String) :
    (makeRow vendas (some inv) d s).numeric[4]? = some (merged_modelos vendas inv d s).fillna0 :=
  rfl

/-- C1: for every (date, series) group of the sales input with positive total
quantity, the weighted average price in the final output row equals
Σ(price·quantity) / Σ(quantity) over exactly that group's rows. -/
theorem C1_weighted_avg_price {sf : FilePart SalesTable} {invp : Option (FilePart InvTable)}
    {out : FinalOutput} {r : FinalRow}
    (hp : process_data ⟨some sf, invp⟩ = Except.ok out)
    (hr : r ∈ out.rows)
    (hpos : 0 < total_quantity_sold (salesGroup sf.table.rows r.timestamp r.series_id)) :
    r.numeric[1]? = some (PVal.num
      (soma_preco_quantidade (salesGroup sf.table.rows r.timestamp r.series_id) /
        total_quantity_sold (salesGroup sf.table.rows r.timestamp r.series_id))) := by
  obtain ⟨sf2, hsf2, hne, hout⟩ := process_data_ok hp
  injection hsf2 with hsf2
  subst hsf2
  rw [hout] at hr
  obtain ⟨hre, hkey⟩ := mem_buildRows hr
  have h1 := congrArg FinalRow.numeric hre
  rw [h1, makeRow_numeric_get1]
  have hgne := salesGroup_ne_nil_of_pos hpos
  unfold merged_preco
  rw [if_neg hgne]
  unfold preco_medio
  rw [div_num_of_ne (ne_of_gt hpos), fillna0_num]

def exVendas1 : List SalesRow :=
  [{ timestamp := 0, item_id := "i1", product_brand := "B", product_style := "S",
     target_quantity := 2, price := 10 },
   { timestamp := 0, item_id := "i2", product_brand := "B", product_style := "S",
     target_quantity := 3, price := 20 }]

def exSf1 : FilePart SalesTable :=
  { filename := "vendas.csv", table := { cols := colunas_obrigatorias_vendas, rows := exVendas1 } }

def exReq1 : Request := { sales_file := some exSf1, inventory_file := none }

def exOut1 : FinalOutput := { cols := colunas_finais false, rows := buildRows exVendas1 none }

def exRow1 : FinalRow := makeRow exVendas1 none 0 "B_S"

theorem C1_weighted_avg_price_witness :
    process_data exReq1 = Except.ok exOut1 ∧
    exRow1 ∈ exOut1.rows ∧
    0 < total_quantity_sold (salesGroup exVendas1 exRow1.timestamp exRow1.series_id) ∧
    exRow1.numeric[1]? = some (PVal.num 16) := by
  have h1 : process_data exReq1 = Except.ok exOut1 := by decide!
  have h2 : exRow1 ∈ exOut1.rows := by decide!
  have h3 : 0 < total_quantity_sold (salesGroup exVendas1 exRow1.timestamp exRow1.series_id) := by
    decide!
  have h4 := C1_weighted_avg_price h1 h2 h3
  refine ⟨h1, h2, h3, ?_⟩
  rw [h4]
  decide!

/-- C2: every output row whose (date, series) sales group sums to quantity 0
(grid rows with no sales at all included) carries weighted average price
exactly 0 — not NaN, an infinity, or an error — given the data-model
constraint that quantities are nonnegative. -/
theorem C2_divide_by_zero_guard {sf : FilePart SalesTable} {invp : Option (FilePart InvTable)}
    {out : FinalOutput} {r : FinalRow}
    (hp : process_data ⟨some sf, invp⟩ = Except.ok out)
    (hr : r ∈ out.rows)
    (hnn : ∀ x ∈ sf.table.rows, 0 ≤ x.target_quantity)
    (h0 : total_quantity_sold (salesGroup sf.table.rows r.timestamp r.series_id) = 0) :
    r.numeric[1]? = some (PVal.num 0) := by
  obtain ⟨sf2, hsf2, hne, hout⟩ := process_data_ok hp
  injection hsf2 with hsf2
  subst hsf2
  rw [hout] at hr
  obtain ⟨hre, hkey⟩ := mem_buildRows hr
  have h1 := congrArg FinalRow.numeric hre
  rw [h1, makeRow_numeric_get1]
  by_cases hg : salesGroup sf.table.rows r.timestamp r.series_id = []
  · unfold merged_preco
    rw [if_pos hg]
    rfl
  · unfold merged_preco
    rw [if_neg hg]
    unfold preco_medio
    have hs : soma_preco_quantidade (salesGroup sf.table.rows r.timestamp r.series_id) = 0 :=
      soma_preco_quantidade_eq_zero (fun x hx => hnn x (mem_salesGroup.mp hx).1) h0
    rw [h0, hs]
    rfl

def exVendas2 : List SalesRow :=
  [{ timestamp := 0, item_id := "i1", product_brand := "B", product_style := "S",
     target_quantity := 0, price := 10 }]

def exSf2 : FilePart SalesTable :=
  { filename := "vendas.csv", table := { cols := colunas_obrigatorias_vendas, rows := exVendas2 } }

def exOut2 : FinalOutput := { cols := colunas_finais false, rows := buildRows exVendas2 none }

def exRow2 : FinalRow := makeRow exVendas2 none 0 "B_S"

theorem C2_divide_by_zero_guard_witness :
    process_data ⟨some exSf2, none⟩ = Except.ok exOut2 ∧
    exRow2 ∈ exOut2.rows ∧
    (∀ x ∈ exVendas2, 0 ≤ x.target_quantity) ∧
    total_quantity_sold (salesGroup exVendas2 exRow2.timestamp exRow2.series_id) = 0 ∧
    exRow2.numeric[1]? = some (PVal.num 0) := by
  have h1 : process_data ⟨some exSf2, none⟩ = Except.ok exOut2 := by decide!
  have h2 : exRow2 ∈ exOut2.rows := by decide!
  have h3 : ∀ x ∈ exVendas2, 0 ≤ x.target_quantity := by decide!
  have h4 : total_quantity_sold (salesGroup exVendas2 exRow2.timestamp exRow2.series_id) = 0 := by
    decide!
  exact ⟨h1, h2, h3, h4, C2_divide_by_zero_guard h1 h2 h3 h4⟩

theorem key_eq_of_pred {d : Date} {s : String} {q : Date × String}
    (h : (q.1 == d && q.2 == s) = true) : q = (d, s) := by
  obtain ⟨h1, h2⟩ := Bool.and_eq_true_iff.mp h
  rw [beq_iff_eq] at h1 h2
  cases q
  simp only at h1 h2
  rw [h1, h2]

/-- C3: a successful run on a non-empty sales input produces exactly
|date range| × |distinct series| rows; every (day, series) pair with the day
in the min-to-max sales range and the series among the distinct sales series
appears in exactly one output row; the date range is exactly the calendar
interval between the attained minimum and maximum sales dates; and output
keys carry no duplicates. -/
theorem C3_grid_completeness {sf : FilePart SalesTable} {invp : Option (FilePart InvTable)}
    {out : FinalOutput}
    (hp : process_data ⟨some sf, invp⟩ = Except.ok out) :
    out.rows.length =
        (datas_completas (data_inicio sf.table.rows) (data_fim sf.table.rows)).length *
          (series_ids_unicos sf.table.rows).length ∧
    (∀ d : Date, ∀ s : String,
        d ∈ datas_completas (data_inicio sf.table.rows) (data_fim sf.table.rows) →
        s ∈ series_ids_unicos sf.table.rows →
        out.rows.countP (fun r => r.timestamp == d && r.series_id == s) = 1) ∧
    (∀ d : Date, d ∈ datas_completas (data_inicio sf.table.rows) (data_fim sf.table.rows) ↔
        data_inicio sf.table.rows ≤ d ∧ d ≤ data_fim sf.table.rows) ∧
    (∀ s : String, s ∈ series_ids_unicos sf.table.rows ↔ s ∈ sf.table.rows.map series_id) ∧
    (∀ r ∈ sf.table.rows, data_inicio sf.table.rows ≤ r.timestamp ∧
        r.timestamp ≤ data_fim sf.table.rows) ∧
    data_inicio sf.table.rows ∈ sf.table.rows.map (fun r => r.timestamp) ∧
    data_fim sf.table.rows ∈ sf.table.rows.map (fun r => r.timestamp) ∧
    (out.rows.map (fun r => (r.timestamp, r.series_id))).Nodup := by
  obtain ⟨sf2, hsf2, hne, hout⟩ := process_data_ok hp
  injection hsf2 with hsf2
  subst hsf2
  rw [hout]
  dsimp only
  have hperm := buildRows_perm sf.table.rows
      (Option.map (fun it => it.rows) (effInv ⟨some sf, invp⟩))
  refine ⟨?_, ?_, ?_, ?_, ?_, ?_, ?_, ?_⟩
  · rw [hperm.length_eq, List.length_map, master_grid_eq_product, List.length_product]
  · intro d s hd hs
    rw [hperm.countP_eq, List.countP_map]
    show (master_grid sf.table.rows).countP (fun q => q.1 == d && q.2 == s) = 1
    have hmem : (d, s) ∈ master_grid sf.table.rows :=
      (mem_master_grid sf.table.rows d s).mpr ⟨hd, hs⟩
    have hnd := nodup_master_grid sf.table.rows
    have hpos : 0 < (master_grid sf.table.rows).countP (fun q => q.1 == d && q.2 == s) := by
      rw [List.countP_pos_iff]
      exact ⟨(d, s), hmem, by simp⟩
    have hle : (master_grid sf.table.rows).countP (fun q => q.1 == d && q.2 == s) ≤ 1 := by
      rw [List.countP_eq_length_filter]
      apply length_le_one_of_nodup_of_all_eq (hnd.filter _)
      intro a ha b hb
      have ha2 := key_eq_of_pred (List.mem_filter.mp ha).2
      have hb2 := key_eq_of_pred (List.mem_filter.mp hb).2
      rw [ha2, hb2]
    omega
  · intro d
    exact mem_datas_completas (data_inicio sf.table.rows) (data_fim sf.table.rows) d
  · intro s
    unfold series_ids_unicos
    exact mem_dedupFirst s _
  · intro r hr
    exact ⟨data_inicio_le hr, le_data_fim hr⟩
  · exact data_inicio_mem hne
  · exact data_fim_mem hne
  · have hmapperm := hperm.map (fun r : FinalRow => (r.timestamp, r.series_id))
    rw [hmapperm.nodup_iff, List.map_map]
    have hid : ((fun r : FinalRow => (r.timestamp, r.series_id)) ∘
        fun p : Date × String =>
          makeRow sf.table.rows
            (Option.map (fun it => it.rows) (effInv ⟨some sf, invp⟩)) p.1 p.2) = id := by
      funext q
      exact Prod.mk.eta
    rw [hid, List.map_id]
    exact nodup_master_grid sf.table.rows

def exVendas3 : List SalesRow :=
  [{ timestamp := 0, item_id := "i1", product_brand := "A", product_style := "X",
     target_quantity := 1, price := 5 },
   { timestamp := 2, item_id := "i2", product_brand := "B", product_style := "Y",
     target_quantity := 2, price := 7 }]

def exSf3 : FilePart SalesTable :=
  { filename := "vendas.csv", table := { cols := colunas_obrigatorias_vendas, rows := exVendas3 } }

def exOut3 : FinalOutput := { cols := colunas_finais false, rows := buildRows exVendas3 none }

theorem C3_grid_completeness_witness :
    process_data ⟨some exSf3, none⟩ = Except.ok exOut3 ∧
    exOut3.rows.length = 6 ∧
    exOut3.rows.countP (fun r => r.timestamp == 1 && r.series_id == "A_X") = 1 := by
  have h1 : process_data ⟨some exSf3, none⟩ = Except.ok exOut3 := by decide!
  have h := C3_grid_completeness h1
  refine ⟨h1, ?_, ?_⟩
  · rw [h.1]
    decide!
  · exact h.2.1 1 "A_X" (by decide!) (by decide!)

theorem series_of_mem_mapeado {vendas : List SalesRow} {inv : List InvRow} {m : MappedInvRow}
    (h : m ∈ inventario_mapeado vendas inv) :
    ∃ sr ∈ vendas, series_id sr = m.series_id := by
  unfold inventario_mapeado at h
  obtain ⟨r, hr, hm⟩ := List.mem_flatMap.mp h
  unfold mapInvRow at hm
  obtain ⟨p, hp, he⟩ := List.mem_map.mp hm
  have hp2 := (List.mem_filter.mp hp).1
  unfold mapa_id at hp2
  rw [mem_dedupFirst] at hp2
  obtain ⟨sr, hsr, hpe⟩ := List.mem_map.mp hp2
  refine ⟨sr, hsr, ?_⟩
  have hms : m.series_id = p.2 := by rw [← he]
  rw [hms, ← hpe]

theorem total_skus_of_series {vendas : List SalesRow} {s : String}
    (h : ∃ sr ∈ vendas, series_id sr = s) :
    0 < total_skus_contagem vendas s ∧
      total_skus_lookup vendas s = PVal.num (total_skus_contagem vendas s) := by
  obtain ⟨sr, hsr, hse⟩ := h
  constructor
  · unfold total_skus_contagem
    have hm : sr.item_id ∈
        (vendas.filter (fun r => series_id r == s)).map (fun r => r.item_id) :=
      List.mem_map_of_mem _ (List.mem_filter.mpr ⟨hsr, by rw [hse]; exact beq_self_eq_true s⟩)
    rw [← mem_dedupFirst] at hm
    exact List.length_pos_of_mem hm
  · unfold total_skus_lookup
    rw [if_pos]
    rw [List.any_eq_true]
    exact ⟨sr, hsr, by rw [hse]; exact beq_self_eq_true s⟩

/-- C4: when inventory is supplied, each output row with a non-empty inventory
group reports `numero_modelos_disponiveis` as the number of distinct item_ids
with positive stock among exactly that (date, series) group's rows, and
`disponibilidade_sku_percentual` as that count divided by the number of
distinct item_ids ever sold for the series; the denominator is positive. -/
theorem C4_availability {sf : FilePart SalesTable} {ip : FilePart InvTable}
    {out : FinalOutput} {r : FinalRow}
    (hp : process_data ⟨some sf, some ip⟩ = Except.ok out)
    (hfn : ip.filename ≠ "")
    (hr : r ∈ out.rows)
    (hg : invGroup sf.table.rows ip.table.rows r.timestamp r.series_id ≠ []) :
    r.numeric[4]? = some (PVal.num
      (numero_modelos (invGroup sf.table.rows ip.table.rows r.timestamp r.series_id) : ℚ)) ∧
    r.numeric[3]? = some (PVal.num
      ((numero_modelos (invGroup sf.table.rows ip.table.rows r.timestamp r.series_id) : ℚ) /
        (total_skus_contagem sf.table.rows r.series_id : ℚ))) ∧
    0 < total_skus_contagem sf.table.rows r.series_id := by
  have heff : effInv ⟨some sf, some ip⟩ = some ip.table := by
    unfold effInv
    dsimp only
    rw [if_neg hfn]
  obtain ⟨sf2, hsf2, hne, hout⟩ := process_data_ok hp
  injection hsf2 with hsf2
  subst hsf2
  have hout2 : out = FinalOutput.mk (colunas_finais true)
      (buildRows sf.table.rows (some ip.table.rows)) := by
    rw [hout, heff]
    rfl
  rw [hout2] at hr
  obtain ⟨hre, hkey⟩ := mem_buildRows hr
  have h1 := congrArg FinalRow.numeric hre
  have hseries : ∃ sr ∈ sf.table.rows, series_id sr = r.series_id := by
    obtain ⟨m, hm⟩ := List.exists_mem_of_ne_nil _ hg
    have hm2 := mem_invGroup.mp hm
    obtain ⟨sr, hsr, hse⟩ := series_of_mem_mapeado hm2.1
    exact ⟨sr, hsr, by rw [hse, hm2.2.2]⟩
  obtain ⟨hskpos, hlook⟩ := total_skus_of_series hseries
  have hskne : (total_skus_contagem sf.table.rows r.series_id : ℚ) ≠ 0 :=
    Nat.cast_ne_zero.mpr (Nat.pos_iff_ne_zero.mp hskpos)
  refine ⟨?_, ?_, hskpos⟩
  · rw [h1, makeRow_numeric_get4]
    unfold merged_modelos
    rw [if_neg hg, fillna0_num]
  · rw [h1, makeRow_numeric_get3]
    unfold merged_disp
    rw [if_neg hg]
    unfold disponibilidade
    rw [hlook, div_num_of_ne hskne, fillna0_num]

def exVendas4 : List SalesRow :=
  [{ timestamp := 0, item_id := "i1", product_brand := "B", product_style := "S",
     target_quantity := 1, price := 1 },
   { timestamp := 0, item_id := "i2", product_brand := "B", product_style := "S",
     target_quantity := 1, price := 1 },
   { timestamp := 0, item_id := "i3", product_brand := "B", product_style := "S",
     target_quantity := 1, price := 1 },
   { timestamp := 0, item_id := "i4", product_brand := "B", product_style := "S",
     target_quantity := 1, price := 1 }]

def exInv4 : List InvRow :=
  [{ snapshot_date := 0, item_id := "i1", quantity_on_hand := 5 },
   { snapshot_date := 0, item_id := "i2", quantity_on_hand := 5 },
   { snapshot_date := 0, item_id := "i3", quantity_on_hand := 5 },
   { snapshot_date := 0, item_id := "i4", quantity_on_hand := 0 }]

def exSf4 : FilePart SalesTable :=
  { filename := "vendas.csv", table := { cols := colunas_obrigatorias_vendas, rows := exVendas4 } }

def exIp4 : FilePart InvTable :=
  { filename := "inventario.csv",
    table := { cols := colunas_obrigatorias_inventario, rows := exInv4 } }

def exOut4 : FinalOutput :=
  { cols := colunas_finais true, rows := buildRows exVendas4 (some exInv4) }

def exRow4 : FinalRow := makeRow exVendas4 (some exInv4) 0 "B_S"

theorem C4_availability_witness :
    process_data ⟨some exSf4, some exIp4⟩ = Except.ok exOut4 ∧
    exRow4 ∈ exOut4.rows ∧
    invGroup exVendas4 exInv4 exRow4.timestamp exRow4.series_id ≠ [] ∧
    numero_modelos (invGroup exVendas4 exInv4 exRow4.timestamp exRow4.series_id) = 3 ∧
    total_skus_contagem exVendas4 exRow4.series_id = 4 ∧
    exRow4.numeric[4]? = some (PVal.num 3) ∧
    exRow4.numeric[3]? = some (PVal.num (3 / 4)) := by
  have h1 : process_data ⟨some exSf4, some exIp4⟩ = Except.ok exOut4 := by decide!
  have hfn : exIp4.filename ≠ "" := by decide!
  have h2 : exRow4 ∈ exOut4.rows := by decide!
  have hg : invGroup exVendas4 exInv4 exRow4.timestamp exRow4.series_id ≠ [] := by decide!
  have h := C4_availability h1 hfn h2 hg
  refine ⟨h1, h2, hg, by decide!, by decide!, ?_, ?_⟩
  · rw [h.1]
    decide!
  · rw [h.2.1]
    decide!

def exVendas5 : List SalesRow :=
  [{ timestamp := 0, item_id := "A", product_brand := "B1", product_style := "S1",
     target_quantity := 1, price := 1 },
   { timestamp := 0, item_id := "A", product_brand := "B2", product_style := "S2",
     target_quantity := 1, price := 1 }]

def exInv5 : List InvRow :=
  [{ snapshot_date := 0, item_id := "A", quantity_on_hand := 5 }]

def exSf5 : FilePart SalesTable :=
  { filename := "vendas.csv", table := { cols := colunas_obrigatorias_vendas, rows := exVendas5 } }

def exIp5 : FilePart InvTable :=
  { filename := "inventario.csv",
    table := { cols := colunas_obrigatorias_inventario, rows := exInv5 } }

def exOut5 : FinalOutput :=
  { cols := colunas_finais true, rows := buildRows exVendas5 (some exInv5) }

/-- C5 counterexample: item "A" is sold under two (brand, style) pairs, so
`drop_duplicates` (which de-duplicates pairs, not item_ids) keeps TWO map
entries for "A"; the single inventory row for "A" is duplicated by the merge
and contributes its stock of 5 to BOTH series' aggregates and output rows. -/
theorem C5_counterexample :
    ((mapa_id exVendas5).filter (fun p => p.1 == "A")).length = 2 ∧
    inventario_mapeado exVendas5 exInv5 =
      [⟨0, "A", 5, "B1_S1"⟩, ⟨0, "A", 5, "B2_S2"⟩] ∧
    estoque_total (invGroup exVendas5 exInv5 0 "B1_S1") = 5 ∧
    estoque_total (invGroup exVendas5 exInv5 0 "B2_S2") = 5 ∧
    process_data ⟨some exSf5, some exIp5⟩ = Except.ok exOut5 ∧
    (makeRow exVendas5 (some exInv5) 0 "B1_S1") ∈ exOut5.rows ∧
    (makeRow exVendas5 (some exInv5) 0 "B2_S2") ∈ exOut5.rows ∧
    (makeRow exVendas5 (some exInv5) 0 "B1_S1").numeric[2]? = some (PVal.num 5) ∧
    (makeRow exVendas5 (some exInv5) 0 "B2_S2").numeric[2]? = some (PVal.num 5) := by
  refine ⟨?_, ?_, ?_, ?_, ?_, ?_, ?_, ?_, ?_⟩ <;> decide!

/-- C5 (amended): the item→series map de-duplicates (item_id, series_id)
pairs, keeping first occurrences, so an item sold under several distinct
series keeps one entry per series and its inventory rows contribute to each of
them.  When every sales row of an item carries one same series, the map has
exactly one entry for that item and each of its inventory rows produces
exactly one mapped row, for that series alone. -/
theorem C5_amended {vendas : List SalesRow} {i : String} {s : String}
    (hconf : ∀ r1 ∈ vendas, r1.item_id = i → series_id r1 = s)
    (hsold : ∃ r ∈ vendas, r.item_id = i) :
    (mapa_id vendas).filter (fun p => p.1 == i) = [(i, s)] ∧
    ∀ invRow : InvRow, invRow.item_id = i →
      mapInvRow (mapa_id vendas) invRow =
        [⟨invRow.snapshot_date, i, invRow.quantity_on_hand, s⟩] := by
  have hnd : (mapa_id vendas).Nodup := nodup_dedupFirst _
  have hmem : ((i, s) : String × String) ∈ (mapa_id vendas).filter (fun p => p.1 == i) := by
    rw [List.mem_filter]
    constructor
    · unfold mapa_id
      rw [mem_dedupFirst]
      obtain ⟨r, hr, hri⟩ := hsold
      have hrs := hconf r hr hri
      refine List.mem_map.mpr ⟨r, hr, ?_⟩
      rw [hri, hrs]
    · exact beq_self_eq_true i
  have hall : ∀ a ∈ (mapa_id vendas).filter (fun p => p.1 == i), a = (i, s) := by
    intro a ha
    obtain ⟨ham, hai⟩ := List.mem_filter.mp ha
    unfold mapa_id at ham
    rw [mem_dedupFirst] at ham
    obtain ⟨r, hr, hre⟩ := List.mem_map.mp ham
    have hri : r.item_id = i := by
      have hb : a.1 = i := by rw [beq_iff_eq] at hai; exact hai
      rw [← hre] at hb
      exact hb
    have hrs := hconf r hr hri
    rw [← hre, hri, hrs]
  have hL := eq_singleton_of_nodup_of_all_eq (hnd.filter _) hmem hall
  refine ⟨hL, ?_⟩
  intro invRow hi
  unfold mapInvRow
  rw [hi, hL]
  rfl

theorem C5_amended_witness :
    (mapa_id exVendas1).filter (fun p => p.1 == "i1") = [("i1", "B_S")] ∧
    mapInvRow (mapa_id exVendas1) ⟨0, "i1", 7⟩ = [⟨0, "i1", 7, "B_S"⟩] := by
  have hconf : ∀ r1 ∈ exVendas1, r1.item_id = "i1" → series_id r1 = "B_S" := by decide!
  have hsold : ∃ r ∈ exVendas1, r.item_id = "i1" := by decide!
  have h := C5_amended hconf hsold
  exact ⟨h.1, h.2 ⟨0, "i1", 7⟩ rfl⟩

/-- C6: a sales file missing required columns is rejected with the error
message that lists the complete missing set, and the run produces an error,
never an output; the same all-or-nothing check applies to a supplied
inventory file. -/
theorem C6_schema_rejection :
    (∀ (sf : FilePart SalesTable) (invp : Option (FilePart InvTable)),
      sf.filename ≠ "" →
      colunas_faltantes colunas_obrigatorias_vendas sf.table.cols ≠ [] →
      process_data ⟨some sf, invp⟩ = Except.error
        (salesColsErr (colunas_faltantes colunas_obrigatorias_vendas sf.table.cols))) ∧
    (∀ (sf : FilePart SalesTable) (ip : FilePart InvTable),
      sf.filename ≠ "" →
      colunas_faltantes colunas_obrigatorias_vendas sf.table.cols = [] →
      ip.filename ≠ "" →
      colunas_faltantes colunas_obrigatorias_inventario ip.table.cols ≠ [] →
      process_data ⟨some sf, some ip⟩ = Except.error
        (invColsErr (colunas_faltantes colunas_obrigatorias_inventario ip.table.cols))) := by
  constructor
  · intro sf invp h1 h2
    unfold process_data
    dsimp only
    rw [if_neg h1, if_pos h2]
  · intro sf ip h1 h2 h3 h4
    unfold process_data
    dsimp only
    rw [if_neg h1, if_neg (not_not_intro h2)]
    have heff : effInv ⟨some sf, some ip⟩ = some ip.table := by
      unfold effInv
      dsimp only
      rw [if_neg h3]
    rw [heff]
    dsimp only
    rw [if_pos h4]

def exBadSales : FilePart SalesTable :=
  { filename := "vendas.csv", table := { cols := ["timestamp", "item_id"], rows := [] } }

def exBadInv : FilePart InvTable :=
  { filename := "inventario.csv", table := { cols := ["item_id"], rows := [] } }

theorem C6_schema_rejection_witness :
    process_data ⟨some exBadSales, none⟩ = Except.error
      (salesColsErr ["product_brand", "product_style", "target_quantity", "price"]) ∧
    process_data ⟨some exSf1, some exBadInv⟩ = Except.error
      (invColsErr ["snapshot_date", "quantity_on_hand"]) := by
  constructor
  · have h := C6_schema_rejection.1 exBadSales none (by decide!) (by decide!)
    rw [h]
    decide!
  · have h := C6_schema_rejection.2 exSf1 exBadInv (by decide!) (by decide!) (by decide!)
      (by decide!)
    rw [h]
    decide!

/-- C7: a successful run emits exactly 4 columns when no (effective) inventory
file was supplied and exactly 7 when one was. -/
theorem C7_column_set_switch {req : Request} {out : FinalOutput}
    (hp : process_data req = Except.ok out) :
    (req.inventory_file = none → out.cols.length = 4) ∧
    (∀ ip : FilePart InvTable, req.inventory_file = some ip → ip.filename ≠ "" →
      out.cols.length = 7) := by
  obtain ⟨sf, hsf, hne, hout⟩ := process_data_ok hp
  constructor
  · intro h
    have he : effInv req = none := by
      unfold effInv
      rw [h]
    rw [hout, he]
    rfl
  · intro ip h hfn
    have he : effInv req = some ip.table := by
      unfold effInv
      rw [h]
      dsimp only
      rw [if_neg hfn]
    rw [hout, he]
    rfl

theorem C7_column_set_switch_witness :
    exOut1.cols.length = 4 ∧ exOut4.cols.length = 7 := by
  have h1 : process_data exReq1 = Except.ok exOut1 := by decide!
  have h4 : process_data ⟨some exSf4, some exIp4⟩ = Except.ok exOut4 := by decide!
  exact ⟨(C7_column_set_switch h1).1 rfl,
    (C7_column_set_switch h4).2 exIp4 rfl (by decide!)⟩

/-- C8: a grid row matching no sales aggregate and (when inventory is in play)
no inventory aggregate has every numeric output column exactly 0. -/
theorem C8_zero_fill {sf : FilePart SalesTable} {invp : Option (FilePart InvTable)}
    {out : FinalOutput} {r : FinalRow}
    (hp : process_data ⟨some sf, invp⟩ = Except.ok out)
    (hr : r ∈ out.rows)
    (hs : salesGroup sf.table.rows r.timestamp r.series_id = [])
    (hi : ∀ it : InvTable, effInv ⟨some sf, invp⟩ = some it →
      invGroup sf.table.rows it.rows r.timestamp r.series_id = []) :
    ∀ v ∈ r.numeric, v = PVal.num 0 := by
  obtain ⟨sf2, hsf2, hne, hout⟩ := process_data_ok hp
  injection hsf2 with hsf2
  subst hsf2
  rw [hout] at hr
  obtain ⟨hre, hkey⟩ := mem_buildRows hr
  have h1 := congrArg FinalRow.numeric hre
  rw [h1]
  have ht : merged_tq sf.table.rows r.timestamp r.series_id = PVal.nan := by
    unfold merged_tq
    rw [if_pos hs]
  have hpm : merged_preco sf.table.rows r.timestamp r.series_id = PVal.nan := by
    unfold merged_preco
    rw [if_pos hs]
  rcases heff : effInv ⟨some sf, invp⟩ with _ | it
  · show ∀ v ∈ (makeRow sf.table.rows none r.timestamp r.series_id).numeric, v = PVal.num 0
    unfold makeRow
    dsimp only
    rw [ht, hpm]
    decide!
  · have hg := hi it heff
    have he : merged_estoque sf.table.rows it.rows r.timestamp r.series_id = PVal.nan := by
      unfold merged_estoque
      rw [if_pos hg]
    have hd : merged_disp sf.table.rows it.rows r.timestamp r.series_id = PVal.nan := by
      unfold merged_disp
      rw [if_pos hg]
    have hm : merged_modelos sf.table.rows it.rows r.timestamp r.series_id = PVal.nan := by
      unfold merged_modelos
      rw [if_pos hg]
    show ∀ v ∈ (makeRow sf.table.rows (some it.rows) r.timestamp r.series_id).numeric,
      v = PVal.num 0
    unfold makeRow
    dsimp only
    rw [ht, hpm, he, hd, hm]
    decide!

def exRow8 : FinalRow := makeRow exVendas3 none 1 "A_X"

theorem C8_zero_fill_witness :
    process_data ⟨some exSf3, none⟩ = Except.ok exOut3 ∧
    exRow8 ∈ exOut3.rows ∧
    salesGroup exVendas3 exRow8.timestamp exRow8.series_id = [] ∧
    ∀ v ∈ exRow8.numeric, v = PVal.num 0 := by
  have h1 : process_data ⟨some exSf3, none⟩ = Except.ok exOut3 := by decide!
  have h2 : exRow8 ∈ exOut3.rows := by decide!
  have h3 : salesGroup exVendas3 exRow8.timestamp exRow8.series_id = [] := by decide!
  have h4 : ∀ it : InvTable, effInv ⟨some exSf3, none⟩ = some it →
      invGroup exVendas3 it.rows exRow8.timestamp exRow8.series_id = [] := by
    intro it hit
    simp [effInv] at hit
  exact ⟨h1, h2, h3, C8_zero_fill h1 h2 h3 h4⟩

/-- C9: determinism — the run's result, CSV serialization included, is a
function of the two uploaded files alone, so equal inputs give identical
output. -/
theorem C9_determinism (r1 r2 : Request)
    (h1 : r1.sales_file = r2.sales_file) (h2 : r1.inventory_file = r2.inventory_file) :
    process_data r1 = process_data r2 ∧
    (process_data r1).map csvOutput = (process_data r2).map csvOutput := by
  obtain ⟨s1, i1⟩ := r1
  obtain ⟨s2, i2⟩ := r2
  dsimp only at h1 h2
  subst h1
  subst h2
  exact ⟨rfl, rfl⟩

theorem C9_determinism_witness :
    process_data exReq1 = process_data exReq1 ∧
    (process_data exReq1).map csvOutput = (process_data exReq1).map csvOutput :=
  C9_determinism exReq1 exReq1 rfl rfl

/-- C10: an inventory form part that is present but carries an empty filename
is handled exactly as an absent inventory part: same validation, same
(4-column) output, no inventory-schema check ever runs on its content. -/
theorem C10_empty_filename_ignored (sfo : Option (FilePart SalesTable)) (it : InvTable) :
    process_data ⟨sfo, some ⟨"", it⟩⟩ = process_data ⟨sfo, none⟩ := by
  unfold process_data
  rcases sfo with _ | sf
  · rfl
  · dsimp only
    have heff : effInv ⟨some sf, some ⟨"", it⟩⟩ = none := by
      unfold effInv
      dsimp only
      rw [if_pos rfl]
    have heff2 : effInv ⟨some sf, none⟩ = none := rfl
    rw [heff, heff2]
